/-
Verification of the branching-video-tree engine of watchtrees-backend
(src/services/video-tree.service.ts) against its natural-language
specification.

The service is embedded shallowly: the MongoDB collection state is a
`Store` (a list of tree records plus a flat list of node records), each
service function becomes a pure state-passing function, and thrown
`HttpError`s become `Except.error` values.  MongoDB update/aggregation
operators ($inc, $setDifference, $concatArrays, $facet, $count, $unwind,
$skip, $limit) are modelled by their documented list semantics.

Repository files referenced by the service but absent from the source
tree (the VideoTree mongoose model with its schema defaults,
util/tree.ts with validateNodes, and video-node.service.ts) are
modelled from the spec; each such definition carries a doc comment
starting with "Modelled from the spec:".
-/
import Mathlib

/-- An HTTP error as thrown by the service (`HttpError(status, message)`);
a missing message is the empty string. -/
structure HttpError where
  statusCode : Nat
  message : String
deriving DecidableEq

/-- A flat persisted video node record (one per branch segment).
The node payload `info` is `none` while no video has been attached. -/
structure VideoNode where
  id : String
  parentId : Option String
  layer : Nat
  info : Option String
  creator : String
deriving DecidableEq

/-- The `info` block of a VideoTree: title, description, creator (owner
identity), status (one of "draft", "public", "private") and the derived
`isEditing` flag. -/
structure TreeInfo where
  title : String
  description : String
  creator : String
  status : String
  isEditing : Bool
deriving DecidableEq

/-- The `data` block of a VideoTree: the view counter and the favorites
set (stored as an array of viewer identities). -/
structure TreeData where
  views : Nat
  favorites : List String
deriving DecidableEq

/-- A persisted VideoTree record; `root` is the id of the root node. -/
structure VideoTree where
  id : String
  root : String
  info : TreeInfo
  data : TreeData
deriving DecidableEq

/-- The nested client-submitted form of a node (`VideoNodeDTO`): a node
with its fully nested children list. -/
inductive VideoNodeDTO where
  | mk (id : String) (layer : Nat) (parentId : Option String)
      (info : Option String) (creator : String) (children : List VideoNodeDTO)

/-- Projection: the id of a submitted node. -/
def VideoNodeDTO.nodeId : VideoNodeDTO → String
  | .mk i _ _ _ _ _ => i

/-- The nested client-submitted form of a tree (`VideoTreeDTO`). -/
structure VideoTreeDTO where
  id : String
  root : VideoNodeDTO
  info : TreeInfo
  data : TreeData

/-- The persistent state the service operates on: the VideoTree
collection and the flat VideoNode collection. -/
structure Store where
  trees : List VideoTree
  nodes : List VideoNode
deriving DecidableEq

/-- `VideoTreeModel.findById(id)`: first tree record whose id matches. -/
def findTree (s : Store) (id : String) : Option VideoTree :=
  s.trees.find? (fun t => t.id = id)

/-- `updateOne`-style modification: apply `f` to the first record whose
id matches, leaving every other record untouched (MongoDB `updateOne`
updates at most one document). -/
def updateOneTree (trees : List VideoTree) (id : String)
    (f : VideoTree → VideoTree) : List VideoTree :=
  match trees with
  | [] => []
  | t :: ts => if t.id = id then f t :: ts else t :: updateOneTree ts id f

/-- `remove()` on a found document: delete the first record whose id
matches. -/
def removeOneTree (trees : List VideoTree) (id : String) : List VideoTree :=
  match trees with
  | [] => []
  | t :: ts => if t.id = id then ts else t :: removeOneTree ts id

mutual

/-- Modelled from the spec: `validateNodes(root, fieldName)` from
util/tree.ts (not in the source tree).  Per spec section 4.2 it is a
depth-first traversal returning true when any node's designated field is
empty or absent; the service calls it with the node content field, so it
is modelled as: some node's `info` payload is absent. -/
def validateNodes : VideoNodeDTO → Bool
  | .mk _ _ _ info _ children => info.isNone || validateNodesList children

/-- Helper for `validateNodes`: does any node of the forest miss its
content field. -/
def validateNodesList : List VideoNodeDTO → Bool
  | [] => false
  | n :: ns => validateNodes n || validateNodesList ns

end

mutual

/-- Modelled from the spec: the flatten operation of util/tree.ts (not
in the source tree).  Per spec section 4.1 it converts a nested tree to
the flat node list with `parentId` and `layer` populated from each
node's position. -/
def traverseNodes (parentId : Option String) (layer : Nat) :
    VideoNodeDTO → List VideoNode
  | .mk i _ _ info creator children =>
    { id := i, parentId := parentId, layer := layer, info := info,
      creator := creator } :: traverseChildren i (layer + 1) children

/-- Helper for `traverseNodes`: flatten a forest of children under the
given parent. -/
def traverseChildren (parentId : String) (layer : Nat) :
    List VideoNodeDTO → List VideoNode
  | [] => []
  | n :: ns => traverseNodes (some parentId) layer n ++ traverseChildren parentId layer ns

end

/-- Upward-walking ancestor test with fuel: does following `parentId`
links from `n` (at most `fuel` steps) reach the node with id `rootId`. -/
def ancestorOf (nodes : List VideoNode) (rootId : String) :
    Nat → VideoNode → Bool
  | 0, _ => false
  | fuel + 1, n =>
    n.id = rootId ||
      match n.parentId with
      | none => false
      | some p =>
        match nodes.find? (fun m => m.id = p) with
        | none => false
        | some parent => ancestorOf nodes rootId fuel parent

/-- A node belongs to the tree rooted at `rootId` when the root is
reachable from it by following parent references. -/
def reachableFrom (nodes : List VideoNode) (rootId : String)
    (n : VideoNode) : Bool :=
  ancestorOf nodes rootId (nodes.length + 1) n

/-- Modelled from the spec: `VideoNodeService.createRoot(ownerId)`
(video-node.service.ts is not in the source tree).  Per spec section 4.3
it creates and persists a layer-0 node with null parent owned by
`ownerId` and returns it; the store-generated identifier is passed in as
`rootId`. -/
def createRoot (s : Store) (userId rootId : String) : Store × VideoNode :=
  let root : VideoNode :=
    { id := rootId, parentId := none, layer := 0, info := none,
      creator := userId }
  ({ s with nodes := s.nodes ++ [root] }, root)

/-- Modelled from the spec: `VideoNodeService.updateByTree(uploadTree,
userId)` (video-node.service.ts is not in the source tree).  Per spec
sections 4.3 and 5 it flattens the submitted nested tree and atomically
reconciles the tree's persisted node set against it (replacing the nodes
reachable from the submitted root with the flattened submission); an
update against an unknown tree fails with not-found and an update
performed by a non-owner fails with an authorization error. -/
def updateByTree (s : Store) (uploadTree : VideoTreeDTO) (userId : String) :
    Store × Except HttpError Unit :=
  match s.nodes.find? (fun n => n.id = uploadTree.root.nodeId) with
  | none => (s, .error ⟨404, "Video not found"⟩)
  | some savedRoot =>
    if savedRoot.creator ≠ userId then
      (s, .error ⟨403, ""⟩)
    else
      let keep := s.nodes.filter
        (fun n => !reachableFrom s.nodes uploadTree.root.nodeId n)
      ({ s with nodes := keep ++ traverseNodes none 0 uploadTree.root }, .ok ())

/-- Modelled from the spec: `VideoNodeService.deleteByRoot(rootId,
ownerId)` (video-node.service.ts is not in the source tree).  Per spec
section 4.3 it deletes every node reachable from the root; the caller
(`remove`) has already verified ownership. -/
def deleteByRoot (s : Store) (rootId : String) (_userId : String) : Store :=
  { s with nodes := s.nodes.filter (fun n => !reachableFrom s.nodes rootId n) }

/-- Modelled from the spec: a Node Store lookup by node id, failing with
the not-found error kind of spec section 7 when no node record has the
given id. -/
def findNodeById (s : Store) (id : String) : Except HttpError VideoNode :=
  match s.nodes.find? (fun n => n.id = id) with
  | none => .error ⟨404, "Video not found"⟩
  | some n => .ok n

/-- `create(userId)` (video-tree.service.ts lines 16-47): create the
root node through the Node Store, then a VideoTree referencing it with
`info.creator = userId`, and return the nested DTO whose root has no
children.  The schema defaults of the VideoTree model are modelled from
the spec (models/video-tree.ts is not in the source tree): title and
description empty, status "public", `isEditing` true, zero views, empty
favorites.  Store-generated identifiers are passed in as `treeId` and
`rootId`. -/
def create (s : Store) (userId treeId rootId : String) :
    Store × VideoTreeDTO :=
  let (s1, root) := createRoot s userId rootId
  let videoTree : VideoTree :=
    { id := treeId, root := root.id,
      info := { title := "", description := "", creator := userId,
                status := "public", isEditing := true },
      data := { views := 0, favorites := [] } }
  let s2 : Store := { s1 with trees := s1.trees ++ [videoTree] }
  (s2, { id := videoTree.id,
         root := .mk root.id root.layer root.parentId root.info root.creator [],
         info := videoTree.info,
         data := videoTree.data })

/-- `update(id, uploadTree, userId)` (video-tree.service.ts lines
49-78): fail with 404 when no tree has the given id; fail with 403 when
the submitted tree's `info.creator` differs from the stored creator;
otherwise reconcile the node set through the Node Store, overwrite the
stored `info` block with the submitted one while keeping the stored
creator, force `isEditing` to true when the title is unset or
`validateNodes` finds a node with missing content, and persist. -/
def update (s : Store) (id : String) (uploadTree : VideoTreeDTO)
    (userId : String) : Store × Except HttpError VideoTree :=
  match findTree s id with
  | none => (s, .error ⟨404, "Video not found"⟩)
  | some videoTree =>
    if uploadTree.info.creator ≠ videoTree.info.creator then
      (s, .error ⟨403, ""⟩)
    else
      match updateByTree s uploadTree userId with
      | (s1, .error e) => (s1, .error e)
      | (s1, .ok _) =>
        let info0 : TreeInfo :=
          { uploadTree.info with creator := videoTree.info.creator }
        let info1 : TreeInfo :=
          if info0.title = "" ∨ validateNodes uploadTree.root then
            { info0 with isEditing := true }
          else info0
        let newTree : VideoTree := { videoTree with info := info1 }
        ({ s1 with trees := updateOneTree s1.trees id (fun _ => newTree) },
         .ok newTree)

/-- `remove(id, userId)` (video-tree.service.ts lines 80-97): fail with
404 when no tree has the given id; fail with 403 when `userId` is not
the stored creator; otherwise cascade node deletion from the tree's root
through the Node Store and then delete the tree record. -/
def remove (s : Store) (id : String) (userId : String) :
    Store × Except HttpError VideoTree :=
  match findTree s id with
  | none => (s, .error ⟨404, "Video not found"⟩)
  | some video =>
    if video.info.creator ≠ userId then
      (s, .error ⟨403, "Not authorized to remove video"⟩)
    else
      let s1 := deleteByRoot s video.root userId
      ({ s1 with trees := removeOneTree s1.trees id }, .ok video)

/-- `findClientOne(id, userId?)` (video-tree.service.ts lines 125-156):
fail with 404 when the aggregation over the tree id matches nothing;
fail with 403 when the tree's status is "private" and the optional
requesting viewer id differs from the creator (an anonymous request
never equals the creator string); otherwise return the tree.  The
creator-info, favorite and history pipeline stages only attach display
data and are elided. -/
def findClientOne (s : Store) (id : String) (userId : Option String) :
    Except HttpError VideoTree :=
  match findTree s id with
  | none => .error ⟨404, "Video not found"⟩
  | some t =>
    if t.info.status = "private" ∧ userId ≠ some t.info.creator then
      .error ⟨403, "Not authorized to video"⟩
    else .ok t

/-- MongoDB `$setDifference`: the elements of the first array that do
not occur in the second, with duplicates removed (set semantics). -/
def setDifference (a b : List String) : List String :=
  (a.filter (fun x => !b.contains x)).dedup

/-- The `$cond` update expression of `updateFavorites` applied to one
favorites array: remove the viewer when present (`$setDifference`),
append them otherwise (`$concatArrays`). -/
def toggleFavorites (favorites : List String) (userId : String) :
    List String :=
  if favorites.contains userId then setDifference favorites [userId]
  else favorites ++ [userId]

/-- `updateFavorites(id, userId)` (video-tree.service.ts lines 308-323):
an `updateOne` with an aggregation-pipeline update that toggles the
viewer's membership in `data.favorites`. -/
def updateFavorites (s : Store) (id userId : String) : Store :=
  { s with
    trees := updateOneTree s.trees id (fun t =>
      { t with data :=
        { t.data with favorites := toggleFavorites t.data.favorites userId } }) }

/-- `incrementViews(id)` (video-tree.service.ts lines 325-330): an
`updateOne` with `$inc` adding 1 to `data.views`. -/
def incrementViews (s : Store) (id : String) : Store :=
  { s with
    trees := updateOneTree s.trees id (fun t =>
      { t with data := { t.data with views := t.data.views + 1 } }) }

/-- The result shape of the listing aggregation: the page of videos and
the total matching count. -/
structure FindResult where
  videos : List VideoTree
  count : Nat
deriving DecidableEq

/-- `find({match, sort, page, max, ...})` (video-tree.service.ts lines
168-209): one aggregation whose `$facet` computes, from the `$match`
output, both the page of videos (`$sort`, `$skip max*(page-1)`,
`$limit max`) and the total count (`$count`); `$unwind` on the count
field drops the facet document entirely when nothing matched, and the
service then falls back to `{videos: [], count: 0}`.  The `$match`
filter is the predicate `pred` over the collection `docs`, and the
`$sort` stage is the abstract reordering `sortBy` (the sort key is a
caller-supplied parameter).  The display-data pipeline stages applied to
each page entry are elided. -/
def find (docs : List VideoTree) (pred : VideoTree → Bool)
    (sortBy : List VideoTree → List VideoTree) (page max : Nat) :
    FindResult :=
  let matched := docs.filter pred
  let videos := ((sortBy matched).drop (max * (page - 1))).take max
  let totalCount : List Nat :=
    if matched.length = 0 then [] else [matched.length]
  match totalCount with
  | [] => { videos := [], count := 0 }
  | c :: _ => { videos := videos, count := c }

/-- `findByCreator(creatorId, page, max)` (video-tree.service.ts lines
211-222): `find` filtered only on `info.creator`. -/
def findByCreator (docs : List VideoTree) (creatorId : String)
    (sortBy : List VideoTree → List VideoTree) (page max : Nat) :
    FindResult :=
  find docs (fun t => t.info.creator = creatorId) sortBy page max

/-- `findClient({match, ...})` (video-tree.service.ts lines 224-248):
`find` with the filter extended by `info.status = "public"` and
`info.isEditing = false`; `extra` is the caller-supplied additional
`match` object, whose keys in every caller of this repository are
disjoint from the two fixed ones, so the merged filter is the
conjunction. -/
def findClient (docs : List VideoTree) (extra : VideoTree → Bool)
    (sortBy : List VideoTree → List VideoTree) (page max : Nat) :
    FindResult :=
  find docs
    (fun t => t.info.status = "public" && t.info.isEditing = false && extra t)
    sortBy page max

/-- `findClientByFeatured` (video-tree.service.ts lines 250-258):
`findClient` with no extra filter (only a sort on `updatedAt`). -/
def findClientByFeatured (docs : List VideoTree)
    (sortBy : List VideoTree → List VideoTree) (page max : Nat) :
    FindResult :=
  findClient docs (fun _ => true) sortBy page max

/-- `findClientByKeyword` (video-tree.service.ts lines 260-271):
`findClient` with a `$text` search filter, modelled by the abstract
text-match predicate `textMatch`. -/
def findClientByKeyword (docs : List VideoTree)
    (textMatch : VideoTree → Bool)
    (sortBy : List VideoTree → List VideoTree) (page max : Nat) :
    FindResult :=
  findClient docs textMatch sortBy page max

/-- `findClientByChannel` (video-tree.service.ts lines 273-283):
`findClient` filtered on `info.creator = channelId`. -/
def findClientByChannel (docs : List VideoTree) (channelId : String)
    (sortBy : List VideoTree → List VideoTree) (page max : Nat) :
    FindResult :=
  findClient docs (fun t => t.info.creator = channelId) sortBy page max

/-- `findClientByIds` (video-tree.service.ts lines 285-295):
`findClient` filtered on `_id $in ids`, with page 1 and page size the
number of ids. -/
def findClientByIds (docs : List VideoTree) (ids : List String)
    (sortBy : List VideoTree → List VideoTree) : FindResult :=
  findClient docs (fun t => ids.contains t.id) sortBy 1 ids.length

/-- `findClientByFavorites` (video-tree.service.ts lines 297-306):
`findClient` filtered on the viewer id being in `data.favorites`. -/
def findClientByFavorites (docs : List VideoTree) (id : String)
    (sortBy : List VideoTree → List VideoTree) (page max : Nat) :
    FindResult :=
  findClient docs (fun t => t.data.favorites.contains id) sortBy page max

/-- Sample data: the root node of Alice's published tree. -/
def aliceRoot : VideoNode :=
  { id := "n1", parentId := none, layer := 0, info := some "v.mp4",
    creator := "alice" }

/-- Sample data: a child node of Alice's published tree. -/
def aliceChild : VideoNode :=
  { id := "n2", parentId := some "n1", layer := 1, info := some "w.mp4",
    creator := "alice" }

/-- Sample data: the root node of Alice's private tree. -/
def alicePrivateRoot : VideoNode :=
  { id := "n3", parentId := none, layer := 0, info := some "s.mp4",
    creator := "alice" }

/-- Sample data: a finished public tree owned by "alice" with one
favoriting viewer. -/
def aliceTree : VideoTree :=
  { id := "t1", root := "n1",
    info := { title := "Title", description := "", creator := "alice",
              status := "public", isEditing := false },
    data := { views := 0, favorites := ["bob"] } }

/-- Sample data: a finished private tree owned by "alice". -/
def alicePrivate : VideoTree :=
  { id := "t2", root := "n3",
    info := { title := "Secret", description := "", creator := "alice",
              status := "private", isEditing := false },
    data := { views := 0, favorites := [] } }

/-- Sample data: a store holding Alice's two trees and their nodes. -/
def baseStore : Store :=
  { trees := [aliceTree, alicePrivate],
    nodes := [aliceRoot, aliceChild, alicePrivateRoot] }

/-- Sample data: a complete submission for Alice's published tree (title
set, every node content set, isEditing false). -/
def uploadComplete : VideoTreeDTO :=
  { id := "t1",
    root := .mk "n1" 0 none (some "v.mp4") "alice"
      [.mk "n2" 1 (some "n1") (some "w.mp4") "alice" []],
    info := { title := "Title", description := "", creator := "alice",
              status := "public", isEditing := false },
    data := { views := 0, favorites := ["bob"] } }

/-- Sample data: the same complete submission but with the client's
`isEditing` input set to true. -/
def uploadEditingTrue : VideoTreeDTO :=
  { id := "t1",
    root := .mk "n1" 0 none (some "v.mp4") "alice"
      [.mk "n2" 1 (some "n1") (some "w.mp4") "alice" []],
    info := { title := "Title", description := "", creator := "alice",
              status := "public", isEditing := true },
    data := { views := 0, favorites := ["bob"] } }

/-- Characterization of `updateOneTree` at the updated id: when some
record matches and the modification keeps a matching id, the lookup after
the update returns the modified record. -/
theorem findTree_updateOneTree_eq (trees : List VideoTree) (id : String)
    (f : VideoTree → VideoTree) (t : VideoTree)
    (hf : ∀ u : VideoTree, u.id = id → (f u).id = id)
    (h : trees.find? (fun u => u.id = id) = some t) :
    (updateOneTree trees id f).find? (fun u => u.id = id) = some (f t) := by
  induction trees with
  | nil => simp at h
  | cons t0 ts ih =>
    by_cases h0 : t0.id = id
    · rw [List.find?_cons_of_pos _ (by simpa using h0)] at h
      cases h
      rw [updateOneTree, if_pos h0]
      exact List.find?_cons_of_pos _ (by simpa using hf _ h0)
    · rw [List.find?_cons_of_neg _ (by simpa using h0)] at h
      rw [updateOneTree, if_neg h0]
      rw [List.find?_cons_of_neg _ (by simpa using h0)]
      exact ih h

/-- Frame property of `updateOneTree`: lookups at any other id are
unchanged, provided the modification keeps a matching id in place. -/
theorem findTree_updateOneTree_ne (trees : List VideoTree) (id j : String)
    (f : VideoTree → VideoTree)
    (hf : ∀ u : VideoTree, u.id = id → (f u).id = id) (hj : j ≠ id) :
    (updateOneTree trees id f).find? (fun u => u.id = j)
      = trees.find? (fun u => u.id = j) := by
  induction trees with
  | nil => rfl
  | cons t0 ts ih =>
    by_cases h0 : t0.id = id
    · rw [updateOneTree, if_pos h0]
      have h1 : ¬t0.id = j := fun hh => hj (hh.symm.trans h0)
      have h2 : ¬(f t0).id = j := fun hh => hj (hh.symm.trans (hf t0 h0))
      rw [List.find?_cons_of_neg _ (by simpa using h2),
        List.find?_cons_of_neg _ (by simpa using h1)]
    · rw [updateOneTree, if_neg h0]
      by_cases h1 : t0.id = j
      · rw [List.find?_cons_of_pos _ (by simpa using h1),
          List.find?_cons_of_pos _ (by simpa using h1)]
      · rw [List.find?_cons_of_neg _ (by simpa using h1),
          List.find?_cons_of_neg _ (by simpa using h1)]
        exact ih

/-- Membership in `$setDifference`: exactly the members of the first
array that are not members of the second. -/
theorem mem_setDifference (a b : List String) (x : String) :
    x ∈ setDifference a b ↔ x ∈ a ∧ x ∉ b := by
  simp [setDifference]

/-- Toggling removes a present viewer and adds an absent one. -/
theorem mem_toggleFavorites (favorites : List String) (u : String) :
    (u ∈ favorites → u ∉ toggleFavorites favorites u) ∧
    (u ∉ favorites → u ∈ toggleFavorites favorites u) := by
  constructor
  · intro hu
    rw [toggleFavorites, if_pos (by simpa using hu)]
    simp [mem_setDifference]
  · intro hu
    rw [toggleFavorites, if_neg (by simpa using hu)]
    simp

/-- Toggling the same viewer twice restores the favorites array up to
set membership. -/
theorem mem_toggleFavorites_twice (favorites : List String) (u x : String) :
    x ∈ toggleFavorites (toggleFavorites favorites u) u ↔ x ∈ favorites := by
  by_cases hu : u ∈ favorites
  · have h1 : toggleFavorites favorites u = setDifference favorites [u] := by
      rw [toggleFavorites, if_pos (by simpa using hu)]
    have h2 : u ∉ setDifference favorites [u] := by simp [mem_setDifference]
    rw [h1, toggleFavorites, if_neg (by simpa using h2)]
    simp only [List.mem_append, mem_setDifference, List.mem_singleton]
    constructor
    · rintro (⟨hx, _⟩ | rfl)
      · exact hx
      · exact hu
    · intro hx
      by_cases hxu : x = u
      · exact Or.inr hxu
      · exact Or.inl ⟨hx, by simpa using hxu⟩
  · have h1 : toggleFavorites favorites u = favorites ++ [u] := by
      rw [toggleFavorites, if_neg (by simpa using hu)]
    have h2 : u ∈ favorites ++ [u] := by simp
    rw [h1, toggleFavorites, if_pos (by simp)]
    simp only [mem_setDifference, List.mem_append, List.mem_singleton]
    constructor
    · rintro ⟨hx | rfl, hxu⟩
      · exact hx
      · exact absurd rfl hxu
    · intro hx
      exact ⟨Or.inl hx, fun hxu => hu (hxu ▸ hx)⟩

/-- Every video on a returned page satisfies the listing's match
predicate, provided the sort stage only reorders its input. -/
theorem mem_find_videos (docs : List VideoTree) (pred : VideoTree → Bool)
    (sortBy : List VideoTree → List VideoTree) (page max : Nat)
    (v : VideoTree) (hmem : ∀ l x, x ∈ sortBy l → x ∈ l)
    (hv : v ∈ (find docs pred sortBy page max).videos) : pred v = true := by
  rw [find] at hv
  by_cases h0 : (docs.filter pred).length = 0
  · simp only [h0, if_pos] at hv
    simp at hv
  · simp only [h0, if_neg] at hv
    simp only [reduceIte] at hv
    have h1 : v ∈ sortBy (docs.filter pred) :=
      List.mem_of_mem_drop (List.mem_of_mem_take hv)
    have h2 := hmem _ _ h1
    exact (List.mem_filter.mp h2).2

/-- `updateByTree` never touches the VideoTree collection. -/
theorem updateByTree_trees (s : Store) (u : VideoTreeDTO) (userId : String) :
    (updateByTree s u userId).1.trees = s.trees := by
  rw [updateByTree]
  split
  · rfl
  · split
    · rfl
    · rfl

/-- Characterization of a successful `update`: the tree looked up at
`id` is overwritten with the submitted info block except that the stored
creator is kept; `isEditing` is forced to true when the title is unset
or a node misses content, and otherwise keeps the submitted value; the
id, root reference and data block are untouched, and the VideoTree
collection change is exactly the one-record update. -/
theorem update_ok (s : Store) (id : String) (u : VideoTreeDTO)
    (userId : String) (s' : Store) (t : VideoTree)
    (h : update s id u userId = (s', .ok t)) :
    ∃ vt, findTree s id = some vt ∧ vt.id = id ∧
      t.id = vt.id ∧ t.root = vt.root ∧ t.data = vt.data ∧
      t.info.creator = vt.info.creator ∧
      t.info.title = u.info.title ∧
      ((u.info.title = "" ∨ validateNodes u.root = true) →
        t.info.isEditing = true) ∧
      (u.info.title ≠ "" → validateNodes u.root = false →
        t.info.isEditing = u.info.isEditing) ∧
      s'.trees = updateOneTree s.trees id (fun _ => t) := by
  rw [update] at h
  split at h
  · simp [Prod.ext_iff] at h
  · rename_i vt hvt
    split at h
    · simp [Prod.ext_iff] at h
    · rename_i hcreator
      split at h
      · simp [Prod.ext_iff] at h
      · rename_i s1 w heq
        simp only [Prod.mk.injEq, Except.ok.injEq] at h
        obtain ⟨hs', ht⟩ := h
        have hs1 : s1.trees = s.trees := by
          have := updateByTree_trees s u userId
          rw [heq] at this
          exact this
        have hid : vt.id = id := by
          have := List.find?_some hvt
          simpa using this
        refine ⟨vt, hvt, hid, ?_⟩
        subst ht
        subst hs'
        by_cases hcond : u.info.title = "" ∨ validateNodes u.root = true
        · have hcond' : ({ u.info with creator := vt.info.creator } :
              TreeInfo).title = "" ∨ validateNodes u.root := by
            simpa using hcond
          refine ⟨rfl, rfl, rfl, ?_, ?_, ?_, ?_, ?_⟩
          · simp [if_pos hcond']
          · simp [if_pos hcond']
          · intro _; simp [if_pos hcond']
          · intro h1 h2
            exact absurd hcond (by simp [h1, h2])
          · simp [hs1]
        · have hcond' : ¬(({ u.info with creator := vt.info.creator } :
              TreeInfo).title = "" ∨ validateNodes u.root) := by
            simpa using hcond
          refine ⟨rfl, rfl, rfl, ?_, ?_, ?_, ?_, ?_⟩
          · simp [if_neg hcond']
          · simp [if_neg hcond']
          · intro h1; exact absurd h1 hcond
          · intro _ _; simp [if_neg hcond']
          · simp [hs1]

/-- Claim C1: for every stored tree and every identity that is not the
tree's creator, `update` with that identity fails with a 403 forbidden
error and leaves the store (tree record and node set) unchanged, and it
fails with 404 not-found when the tree does not exist.  The ambient
well-formedness assumptions are that the submitted root id resolves to a
stored node and that this node is owned by the tree's creator (root
nodes are created with the tree's creator by `createRoot`). -/
theorem update_by_non_creator_forbidden (s : Store) (id : String)
    (u : VideoTreeDTO) (userId : String) :
    (findTree s id = none →
      update s id u userId = (s, .error ⟨404, "Video not found"⟩)) ∧
    (∀ vt r, findTree s id = some vt → userId ≠ vt.info.creator →
      s.nodes.find? (fun n => n.id = u.root.nodeId) = some r →
      r.creator = vt.info.creator →
      update s id u userId = (s, .error ⟨403, ""⟩)) := by
  constructor
  · intro h
    rw [update, h]
  · intro vt r hvt huser hroot hrc
    rw [update, hvt]
    dsimp only
    by_cases hc : u.info.creator = vt.info.creator
    · rw [if_neg (by simp [hc])]
      rw [updateByTree, hroot]
      dsimp only
      rw [if_pos (show r.creator ≠ userId from fun hh =>
        huser (hh.symm.trans hrc))]
    · rw [if_pos hc]

/-- Witness for claim C1 at a concrete input: "mallory" cannot update
Alice's stored tree, and the store is unchanged. -/
theorem update_by_non_creator_forbidden_witness :
    update baseStore "t1" uploadComplete "mallory"
      = (baseStore, .error ⟨403, ""⟩) :=
  (update_by_non_creator_forbidden baseStore "t1" uploadComplete
    "mallory").2 aliceTree aliceRoot (by decide) (by decide) (by decide)
    (by decide)

/-- Sample data: the record persisted when Alice submits a complete tree
whose client-supplied `isEditing` input is true. -/
def persistedEditingTrue : VideoTree :=
  { id := "t1", root := "n1",
    info := { title := "Title", description := "", creator := "alice",
              status := "public", isEditing := true },
    data := { views := 0, favorites := ["bob"] } }

/-- Counterexample to claim C2: a successful update of a complete tree
(title set, every node content present) persists `isEditing = true`
because the submitted tree carried `isEditing = true` — the flag is not
equal to the derived predicate (which is false here) and is taken from
freely settable client input. -/
theorem isEditing_not_derived_counterexample :
    (update baseStore "t1" uploadEditingTrue "alice").2
      = .ok persistedEditingTrue ∧
    findTree (update baseStore "t1" uploadEditingTrue "alice").1 "t1"
      = some persistedEditingTrue ∧
    persistedEditingTrue.info.isEditing = true ∧
    uploadEditingTrue.info.title ≠ "" ∧
    validateNodes uploadEditingTrue.root = false :=
  ⟨rfl, rfl, rfl, by decide, rfl⟩

/-- Claim C2 (amended): after every successful update the persisted
`isEditing` flag is true whenever the derived predicate (title unset or
some node's content unset) holds on the submitted tree, but when the
predicate is false the flag equals the client-submitted `isEditing`
value rather than being recomputed to false; immediately after `create`
it is true (schema default, title unset). -/
theorem isEditing_update_amended (s : Store) (id : String)
    (u : VideoTreeDTO) (userId : String) (s' : Store) (t : VideoTree)
    (h : update s id u userId = (s', .ok t)) :
    findTree s' id = some t ∧
    ((u.info.title = "" ∨ validateNodes u.root = true) →
      t.info.isEditing = true) ∧
    (u.info.title ≠ "" → validateNodes u.root = false →
      t.info.isEditing = u.info.isEditing) ∧
    (∀ s₀ userId₀ treeId rootId,
      ((create s₀ userId₀ treeId rootId).2).info.isEditing = true) := by
  obtain ⟨vt, hvt, hid, ht_id, _, _, _, _, htrue, hfalse, hs'⟩ :=
    update_ok s id u userId s' t h
  refine ⟨?_, htrue, hfalse, fun _ _ _ _ => rfl⟩
  rw [findTree, hs']
  rw [findTree] at hvt
  exact findTree_updateOneTree_eq s.trees id (fun _ => t) vt
    (fun _ _ => ht_id.trans hid) hvt

/-- Witness for the amended claim C2 at a concrete input: Alice submits
a complete tree with `isEditing = false`; the persisted record is
unchanged `aliceTree` and `create` yields an editing tree. -/
theorem isEditing_update_amended_witness :
    findTree (update baseStore "t1" uploadComplete "alice").1 "t1"
      = some aliceTree ∧
    aliceTree.info.isEditing = uploadComplete.info.isEditing ∧
    ((create baseStore "carol" "t9" "n9").2).info.isEditing = true :=
  ⟨(isEditing_update_amended baseStore "t1" uploadComplete "alice" _
      aliceTree rfl).1,
   (isEditing_update_amended baseStore "t1" uploadComplete "alice" _
      aliceTree rfl).2.2.1 (by decide) rfl,
   (isEditing_update_amended baseStore "t1" uploadComplete "alice" _
      aliceTree rfl).2.2.2 baseStore "carol" "t9" "n9"⟩

/-- Claim C3: `updateFavorites` toggles the viewer's membership in the
tree's favorites set — it removes a present viewer and adds an absent
one — and two successive calls for the same viewer restore the favorites
set to its original state up to set membership. -/
theorem updateFavorites_toggle (s : Store) (id userId : String)
    (t : VideoTree) (h : findTree s id = some t) :
    findTree (updateFavorites s id userId) id
      = some { t with data :=
          { t.data with
            favorites := toggleFavorites t.data.favorites userId } } ∧
    (userId ∈ t.data.favorites →
      userId ∉ toggleFavorites t.data.favorites userId) ∧
    (userId ∉ t.data.favorites →
      userId ∈ toggleFavorites t.data.favorites userId) ∧
    findTree (updateFavorites (updateFavorites s id userId) id userId) id
      = some { t with data :=
          { t.data with
            favorites := toggleFavorites
              (toggleFavorites t.data.favorites userId) userId } } ∧
    (∀ x, x ∈ toggleFavorites (toggleFavorites t.data.favorites userId)
        userId ↔ x ∈ t.data.favorites) := by
  rw [findTree] at h
  have h1 :
      findTree (updateFavorites s id userId) id
        = some { t with data :=
            { t.data with
              favorites := toggleFavorites t.data.favorites userId } } := by
    rw [findTree, updateFavorites]
    exact findTree_updateOneTree_eq s.trees id _ t (fun _ hu => hu) h
  have h2 :
      findTree (updateFavorites (updateFavorites s id userId) id userId) id
        = some { t with data :=
            { t.data with
              favorites := toggleFavorites
                (toggleFavorites t.data.favorites userId) userId } } := by
    rw [findTree, updateFavorites]
    rw [findTree] at h1
    exact findTree_updateOneTree_eq (updateFavorites s id userId).trees id
      (fun u => { u with data :=
        { u.data with
          favorites := toggleFavorites u.data.favorites userId } })
      { t with data :=
        { t.data with
          favorites := toggleFavorites t.data.favorites userId } }
      (fun _ hu => hu) h1
  exact ⟨h1, (mem_toggleFavorites t.data.favorites userId).1,
    (mem_toggleFavorites t.data.favorites userId).2, h2,
    fun x => mem_toggleFavorites_twice t.data.favorites userId x⟩

/-- Witness for claim C3 at a concrete input: toggling "bob" (already a
favoriter) on Alice's tree and toggling again restores "bob"'s
membership. -/
theorem updateFavorites_toggle_witness :
    findTree (updateFavorites baseStore "t1" "bob") "t1"
      = some { aliceTree with data :=
          { aliceTree.data with
            favorites := toggleFavorites aliceTree.data.favorites "bob" } } ∧
    ("bob" ∈ aliceTree.data.favorites →
      "bob" ∉ toggleFavorites aliceTree.data.favorites "bob") ∧
    ("bob" ∈ toggleFavorites (toggleFavorites aliceTree.data.favorites
        "bob") "bob" ↔ "bob" ∈ aliceTree.data.favorites) :=
  ⟨(updateFavorites_toggle baseStore "t1" "bob" aliceTree (by decide)).1,
   (updateFavorites_toggle baseStore "t1" "bob" aliceTree (by decide)).2.1,
   (updateFavorites_toggle baseStore "t1" "bob" aliceTree
      (by decide)).2.2.2.2 "bob"⟩

/-- Claim C4: for every listing call with page ≥ 1 and page size ≥ 1
over a population of N matching trees, `find` returns the total matching
count independent of the page, and a page of videos that skips exactly
max*(page-1) sorted trees and holds at most max trees (its length is
min max (N - max*(page-1))), provided the sort stage only reorders its
input. -/
theorem find_pagination (docs : List VideoTree) (pred : VideoTree → Bool)
    (sortBy : List VideoTree → List VideoTree) (page max : Nat)
    (_hp : 1 ≤ page) (_hm : 1 ≤ max)
    (hs : (sortBy (docs.filter pred)).length = (docs.filter pred).length) :
    (find docs pred sortBy page max).count = (docs.filter pred).length ∧
    (find docs pred sortBy page max).videos
      = ((sortBy (docs.filter pred)).drop (max * (page - 1))).take max ∧
    (find docs pred sortBy page max).videos.length
      = min max ((docs.filter pred).length - max * (page - 1)) := by
  rw [find]
  by_cases h0 : (docs.filter pred).length = 0
  · have hnil : docs.filter pred = [] := List.length_eq_zero.mp h0
    have hsnil : sortBy [] = [] := by
      apply List.length_eq_zero.mp
      rw [← hnil, hs, h0]
    rw [if_pos h0]
    dsimp only
    rw [hnil, hsnil]
    simp
  · rw [if_neg h0]
    dsimp only
    refine ⟨rfl, rfl, ?_⟩
    rw [List.length_take, List.length_drop, hs]

/-- Witness for claim C4 at a concrete input: over 25 matching trees
with page size 10, page 1 yields 10 trees and count 25, and page 3
yields the remaining 5. -/
theorem find_pagination_witness :
    (find (List.replicate 25 aliceTree) (fun _ => true) (fun l => l)
      1 10).count = 25 ∧
    (find (List.replicate 25 aliceTree) (fun _ => true) (fun l => l)
      1 10).videos.length = 10 ∧
    (find (List.replicate 25 aliceTree) (fun _ => true) (fun l => l)
      3 10).videos.length = 5 :=
  ⟨((find_pagination (List.replicate 25 aliceTree) (fun _ => true)
      (fun l => l) 1 10 (by decide) (by decide) rfl).1).trans (by simp),
   ((find_pagination (List.replicate 25 aliceTree) (fun _ => true)
      (fun l => l) 1 10 (by decide) (by decide) rfl).2.2).trans (by simp),
   ((find_pagination (List.replicate 25 aliceTree) (fun _ => true)
      (fun l => l) 3 10 (by decide) (by decide) rfl).2.2).trans (by simp)⟩

/-- Claim C10: when zero trees match the listing filter, `find` does not
fail: the `$unwind` of the empty count facet drops the result document
and the service falls back to videos = [] and count = 0. -/
theorem find_empty_population (docs : List VideoTree)
    (pred : VideoTree → Bool)
    (sortBy : List VideoTree → List VideoTree) (page max : Nat)
    (h : docs.filter pred = []) :
    find docs pred sortBy page max = { videos := [], count := 0 } := by
  rw [find, h]
  simp

/-- Witness for claim C10 at a concrete input: a filter matching no
stored tree yields the empty page and zero count. -/
theorem find_empty_population_witness :
    find baseStore.trees (fun t => t.info.creator = "nobody")
      (fun l => l) 1 10 = { videos := [], count := 0 } :=
  find_empty_population baseStore.trees
    (fun t => t.info.creator = "nobody") (fun l => l) 1 10 (by decide)

/-- Claim C5: `findClientOne` on a tree with status "private" returns
the tree only to a viewer identity equal to the creator; every other
viewer — including an anonymous request carrying no viewer id — gets a
403 forbidden error. -/
theorem findClientOne_private_visibility (s : Store) (id : String)
    (t : VideoTree) (h : findTree s id = some t)
    (hpriv : t.info.status = "private") :
    (∀ userId : Option String, userId ≠ some t.info.creator →
      findClientOne s id userId
        = .error ⟨403, "Not authorized to video"⟩) ∧
    findClientOne s id (some t.info.creator) = .ok t := by
  constructor
  · intro userId hu
    rw [findClientOne, h]
    dsimp only
    rw [if_pos ⟨hpriv, hu⟩]
  · rw [findClientOne, h]
    dsimp only
    rw [if_neg (fun hh => hh.2 rfl)]

/-- Witness for claim C5 at a concrete input: Alice's private tree is
forbidden to an anonymous viewer and returned to Alice. -/
theorem findClientOne_private_visibility_witness :
    findClientOne baseStore "t2" none
      = .error ⟨403, "Not authorized to video"⟩ ∧
    findClientOne baseStore "t2" (some "alice") = .ok alicePrivate :=
  ⟨(findClientOne_private_visibility baseStore "t2" alicePrivate
      (by decide) rfl).1 none (by decide),
   (findClientOne_private_visibility baseStore "t2" alicePrivate
      (by decide) rfl).2⟩

/-- Claim C6: `info.creator` is set at tree creation and never
reassigned: every successful update persists a tree whose creator equals
the stored creator from before the call, regardless of the creator value
carried in the submitted tree, and `create` records exactly the creating
identity. -/
theorem creator_immutable (s : Store) (id : String) (u : VideoTreeDTO)
    (userId : String) (s' : Store) (t vt : VideoTree)
    (hvt : findTree s id = some vt)
    (h : update s id u userId = (s', .ok t)) :
    findTree s' id = some t ∧ t.info.creator = vt.info.creator ∧
    (∀ s₀ userId₀ treeId rootId,
      ((create s₀ userId₀ treeId rootId).2).info.creator = userId₀) := by
  obtain ⟨vt', hvt', hid, ht_id, _, _, hcreator, _, _, _, hs'⟩ :=
    update_ok s id u userId s' t h
  have hvv : vt' = vt := by
    rw [hvt] at hvt'
    exact (Option.some.inj hvt').symm
  refine ⟨?_, hvv ▸ hcreator, fun _ _ _ _ => rfl⟩
  rw [findTree, hs']
  rw [findTree] at hvt'
  exact findTree_updateOneTree_eq s.trees id (fun _ => t) vt'
    (fun _ _ => ht_id.trans hid) hvt'

/-- Witness for claim C6 at a concrete input: after Alice's successful
update the stored creator is still "alice", and a tree created by
"carol" records creator "carol". -/
theorem creator_immutable_witness :
    findTree (update baseStore "t1" uploadComplete "alice").1 "t1"
      = some aliceTree ∧
    aliceTree.info.creator = aliceTree.info.creator ∧
    ((create baseStore "carol" "t9" "n9").2).info.creator = "carol" :=
  ⟨(creator_immutable baseStore "t1" uploadComplete "alice" _ aliceTree
      aliceTree (by decide) rfl).1,
   (creator_immutable baseStore "t1" uploadComplete "alice" _ aliceTree
      aliceTree (by decide) rfl).2.1,
   (creator_immutable baseStore "t1" uploadComplete "alice" _ aliceTree
      aliceTree (by decide) rfl).2.2 baseStore "carol" "t9" "n9"⟩

/-- Every video returned by `findClient` has public status and a
finished (non-editing) state, provided the sort stage only reorders its
input. -/
theorem mem_findClient_videos (docs : List VideoTree)
    (extra : VideoTree → Bool)
    (sortBy : List VideoTree → List VideoTree) (page max : Nat)
    (v : VideoTree) (hmem : ∀ l x, x ∈ sortBy l → x ∈ l)
    (hv : v ∈ (findClient docs extra sortBy page max).videos) :
    v.info.status = "public" ∧ v.info.isEditing = false := by
  have hpred := mem_find_videos docs
    (fun t => t.info.status = "public" && t.info.isEditing = false
      && extra t) sortBy page max v hmem hv
  simp only [Bool.and_eq_true, decide_eq_true_eq] at hpred
  exact ⟨hpred.1.1, hpred.1.2⟩

/-- Claim C7: every tree returned by any call of the client listing
family (`findClient`, `findClientByFeatured`, `findClientByKeyword`,
`findClientByChannel`, `findClientByIds`, `findClientByFavorites`) has
status "public" and `isEditing = false`, while the creator-scoped
listing `findByCreator` can surface a non-public tree.  The sort stage
is assumed to only reorder its input. -/
theorem client_listing_only_public_finished :
    (∀ docs extra sortBy page max (v : VideoTree),
      (∀ l x, x ∈ sortBy l → x ∈ l) →
      v ∈ (findClient docs extra sortBy page max).videos →
      v.info.status = "public" ∧ v.info.isEditing = false) ∧
    (∀ docs sortBy page max (v : VideoTree),
      (∀ l x, x ∈ sortBy l → x ∈ l) →
      v ∈ (findClientByFeatured docs sortBy page max).videos →
      v.info.status = "public" ∧ v.info.isEditing = false) ∧
    (∀ docs textMatch sortBy page max (v : VideoTree),
      (∀ l x, x ∈ sortBy l → x ∈ l) →
      v ∈ (findClientByKeyword docs textMatch sortBy page max).videos →
      v.info.status = "public" ∧ v.info.isEditing = false) ∧
    (∀ docs channelId sortBy page max (v : VideoTree),
      (∀ l x, x ∈ sortBy l → x ∈ l) →
      v ∈ (findClientByChannel docs channelId sortBy page max).videos →
      v.info.status = "public" ∧ v.info.isEditing = false) ∧
    (∀ docs ids sortBy (v : VideoTree),
      (∀ l x, x ∈ sortBy l → x ∈ l) →
      v ∈ (findClientByIds docs ids sortBy).videos →
      v.info.status = "public" ∧ v.info.isEditing = false) ∧
    (∀ docs id sortBy page max (v : VideoTree),
      (∀ l x, x ∈ sortBy l → x ∈ l) →
      v ∈ (findClientByFavorites docs id sortBy page max).videos →
      v.info.status = "public" ∧ v.info.isEditing = false) ∧
    (alicePrivate ∈
        (findByCreator [alicePrivate] "alice" (fun l => l) 1 1).videos ∧
      alicePrivate.info.status ≠ "public") := by
  refine ⟨fun docs extra sortBy page max v hmem hv =>
      mem_findClient_videos docs extra sortBy page max v hmem hv,
    fun docs sortBy page max v hmem hv =>
      mem_findClient_videos docs (fun _ => true) sortBy page max v hmem hv,
    fun docs textMatch sortBy page max v hmem hv =>
      mem_findClient_videos docs textMatch sortBy page max v hmem hv,
    fun docs channelId sortBy page max v hmem hv =>
      mem_findClient_videos docs
        (fun t => t.info.creator = channelId) sortBy page max v hmem hv,
    fun docs ids sortBy v hmem hv =>
      mem_findClient_videos docs (fun t => ids.contains t.id) sortBy 1
        ids.length v hmem hv,
    fun docs id sortBy page max v hmem hv =>
      mem_findClient_videos docs
        (fun t => t.data.favorites.contains id) sortBy page max v hmem hv,
    by decide, by decide⟩

/-- Witness for claim C7 at a concrete input: the one page entry of a
concrete `findClient` call over Alice's two trees is public and
finished. -/
theorem client_listing_only_public_finished_witness :
    aliceTree.info.status = "public" ∧ aliceTree.info.isEditing = false :=
  client_listing_only_public_finished.1 [aliceTree, alicePrivate]
    (fun _ => true) (fun l => l) 1 10 aliceTree (fun _ _ hx => hx)
    (by decide)

/-- Claim C8: `remove(treeId, requesterId)` fails with 404 not-found
when the tree does not exist and with 403 forbidden when the requester
is not the creator; on success it deletes the tree's node set (every
node from which the root is reachable) and removes the tree record, so
that querying any former node id of the tree afterwards returns
not-found (assuming stored node ids are unique). -/
theorem remove_cascade (s : Store) (id userId : String) :
    (findTree s id = none →
      remove s id userId = (s, .error ⟨404, "Video not found"⟩)) ∧
    (∀ video, findTree s id = some video → video.info.creator ≠ userId →
      remove s id userId
        = (s, .error ⟨403, "Not authorized to remove video"⟩)) ∧
    (∀ video, findTree s id = some video → video.info.creator = userId →
      (s.nodes.map VideoNode.id).Nodup →
      remove s id userId
        = ({ trees := removeOneTree s.trees id,
             nodes := s.nodes.filter
               (fun n => !reachableFrom s.nodes video.root n) },
           .ok video) ∧
      ∀ n ∈ s.nodes, reachableFrom s.nodes video.root n = true →
        findNodeById (remove s id userId).1 n.id
          = .error ⟨404, "Video not found"⟩) := by
  refine ⟨?_, ?_, ?_⟩
  · intro h
    rw [remove, h]
  · intro video hvid hne
    rw [remove, hvid]
    dsimp only
    rw [if_pos hne]
  · intro video hvid heq hnodup
    have hrem : remove s id userId
        = ({ trees := removeOneTree s.trees id,
             nodes := s.nodes.filter
               (fun n => !reachableFrom s.nodes video.root n) },
           .ok video) := by
      rw [remove, hvid]
      dsimp only
      rw [if_neg (fun hh => hh heq)]
      rfl
    refine ⟨hrem, ?_⟩
    intro n hn hreach
    have hfind : ((s.nodes.filter
        (fun m => !reachableFrom s.nodes video.root m)).find?
        (fun m => m.id = n.id)) = none := by
      rw [List.find?_eq_none]
      intro m hm
      simp only [decide_eq_true_eq]
      intro hmn
      have hm' := List.mem_filter.mp hm
      have hmeq : m = n := List.inj_on_of_nodup_map hnodup hm'.1 hn hmn
      have hflag := hm'.2
      rw [hmeq, hreach] at hflag
      simp at hflag
    rw [hrem, findNodeById]
    dsimp only
    rw [hfind]

/-- Witness for claim C8 at a concrete input: removing Alice's
published tree deletes its two nodes and querying the former child node
id "n2" afterwards returns not-found. -/
theorem remove_cascade_witness :
    remove baseStore "t1" "alice"
      = ({ trees := removeOneTree baseStore.trees "t1",
           nodes := baseStore.nodes.filter
             (fun n => !reachableFrom baseStore.nodes aliceTree.root n) },
         .ok aliceTree) ∧
    findNodeById (remove baseStore "t1" "alice").1 "n2"
      = .error ⟨404, "Video not found"⟩ :=
  ⟨((remove_cascade baseStore "t1" "alice").2.2 aliceTree (by decide)
      rfl (by decide)).1,
   ((remove_cascade baseStore "t1" "alice").2.2 aliceTree (by decide)
      rfl (by decide)).2 aliceChild (by decide) (by decide)⟩

/-- Claim C9: `incrementViews` on an existing tree increases that
tree's `data.views` counter by exactly 1 (a plain Nat increment, no
upper bound) and changes nothing else: the tree keeps its id, root,
info block and favorites, lookups at every other id are unchanged, and
the node collection is untouched. -/
theorem incrementViews_spec (s : Store) (id : String) (t : VideoTree)
    (h : findTree s id = some t) :
    findTree (incrementViews s id) id
      = some { t with data :=
          { t.data with views := t.data.views + 1 } } ∧
    (∀ j, j ≠ id → findTree (incrementViews s id) j = findTree s j) ∧
    (incrementViews s id).nodes = s.nodes := by
  refine ⟨?_, ?_, rfl⟩
  · rw [findTree, incrementViews]
    rw [findTree] at h
    exact findTree_updateOneTree_eq s.trees id
      (fun u => { u with data := { u.data with views := u.data.views + 1 } })
      t (fun _ hu => hu) h
  · intro j hj
    rw [findTree, findTree, incrementViews]
    exact findTree_updateOneTree_ne s.trees id j
      (fun u => { u with data := { u.data with views := u.data.views + 1 } })
      (fun _ hu => hu) hj

/-- Witness for claim C9 at a concrete input: a view on Alice's
published tree bumps its counter to 1 and leaves the private tree's
lookup unchanged. -/
theorem incrementViews_spec_witness :
    findTree (incrementViews baseStore "t1") "t1"
      = some { aliceTree with data :=
          { aliceTree.data with views := aliceTree.data.views + 1 } } ∧
    findTree (incrementViews baseStore "t1") "t2"
      = findTree baseStore "t2" :=
  ⟨(incrementViews_spec baseStore "t1" aliceTree (by decide)).1,
   (incrementViews_spec baseStore "t1" aliceTree (by decide)).2.1 "t2"
     (by decide)⟩
